import Mathlib

/-!
# Verification of the Transparencia statistics module

Shallow embedding of `src/utils/consensusStats.ts` and
`src/utils/participationStats.ts`: the four analysis functions
`calculateConsensus`, `getAffinity`, `getRankings`,
`calculateDashboardStats` and `calculateParticipationStats`,
together with theorems checking the specified behaviour.

Conventions of the embedding:
* JS numbers holding vote counts are modelled as `ℕ`; derived rates are `ℤ`
  (they are always integers in the code, being results of `Math.round`).
* `Math.round` is modelled exactly on `ℚ` (`jsRound`): round half toward +∞.
* Optional JS fields/objects are `Option`; the JS `x || d` default on a
  numeric field is `jsOrNat` (`0` is falsy in JS), on a string field `jsOrStr`
  (`""` is falsy).
* JS `Record<string, number>` objects are association lists in insertion
  order, which is the enumeration order of `Object.keys`/`Object.entries`
  for non-numeric keys.
* `Array.prototype.sort` is a stable sort (ES2019), modelled by
  `List.mergeSort`.
-/

namespace Transparencia

/-- JS `Math.round` on exact rationals: round half toward positive infinity. -/
def jsRound (q : ℚ) : ℤ := Int.floor (q + 1/2)

/-- Character-list helper for `strIncludes`: does `pat` occur at the very
start of the second list? -/
def charsHavePre : List Char → List Char → Bool
  | [], _ => true
  | _ :: _, [] => false
  | p :: ps, c :: cs => p == c && charsHavePre ps cs

/-- Character-list helper for `strIncludes`: does `pat` occur contiguously
anywhere in the second list? -/
def charsHaveSub (pat : List Char) : List Char → Bool
  | [] => charsHavePre pat []
  | c :: cs => charsHavePre pat (c :: cs) || charsHaveSub pat cs

/-- JS `s.includes(pat)`: substring containment, case-sensitive. -/
def strIncludes (s pat : String) : Bool := charsHaveSub pat.data s.data

/-- JS `a || d` for an optional numeric field: `0` and `undefined` are falsy. -/
def jsOrNat (a : Option ℕ) (d : ℕ) : ℕ :=
  match a with
  | some n => if n = 0 then d else n
  | none => d

/-- JS `a || b` for optional string values: `""` and `undefined` are falsy. -/
def jsOrStr (a b : Option String) : Option String :=
  match a with
  | some s => if s = "" then b else some s
  | none => b

/-! ## Data model (`Initiative` of `dashboardStats.ts`) -/

/-- One entry of a deputy no-vote list (`noVote` / `missingDeputies`). -/
structure Deputy where
  codParlamentario : Option String := none
  apellidosNombre : Option String := none
  grupo : Option String := none
  formacion : Option String := none
deriving Repr, DecidableEq

/-- `voting.result.totales` of the raw JSON data. All fields are defended
with `|| 0` (or `|| 350`) in the code, so they are optional here. -/
structure Totales where
  afavor : Option ℕ := none
  enContra : Option ℕ := none
  abstenciones : Option ℕ := none
  presentes : Option ℕ := none
  noVotan : Option ℕ := none
deriving Repr, DecidableEq

/-- `voting.result.desglose`: per-party vote counts for each category,
as JS records in insertion order. -/
structure Desglose where
  yes : Option (List (String × ℕ)) := none
  no : Option (List (String × ℕ)) := none
  abstention : Option (List (String × ℕ)) := none
  no_vote : Option (List (String × ℕ)) := none
deriving Repr, DecidableEq

/-- `voting.result`. -/
structure VoteResult where
  totales : Option Totales := none
  desglose : Option Desglose := none
deriving Repr, DecidableEq

/-- The optional `voting` object of an initiative. -/
structure Voting where
  «exists» : Bool
  yes : Option ℕ := none
  no : Option ℕ := none
  abstentions : Option ℕ := none
  presentes : Option ℕ := none
  result : Option VoteResult := none
  noVote : Option (List Deputy) := none
  missingDeputies : Option (List Deputy) := none
deriving Repr, DecidableEq

/-- An initiative record (`Initiative` of `dashboardStats.ts`). The
presentation-only string fields default to `""` for brevity of literals. -/
structure Initiative where
  resultado_tram : Option String := none
  autor : Option String := none
  titulo : String := ""
  enlace : String := ""
  fecha_presentado : String := ""
  voting : Option Voting := none
deriving Repr, DecidableEq

/-! ## `consensusStats.ts`: `calculateConsensus` -/

/-- The result type of `calculateConsensus`. Labels and colors are the
literal strings of the source. -/
structure ConsensusMetric where
  consensusIndex : ℤ
  label : String
  color : String
deriving Repr, DecidableEq

/-- The `{ consensusIndex: 0, label: "Sin Votación", color: "#e5e7eb" }`
early return of `calculateConsensus`. -/
def sinVotacionMetric : ConsensusMetric := ⟨0, "Sin Votación", "#e5e7eb"⟩

/-- Body of `calculateConsensus` once a `voting` object is present. -/
def consensusOfVoting (v : Voting) : ConsensusMetric :=
  if v.exists = false then sinVotacionMetric
  else
    let yes := jsOrNat v.yes 0
    let no := jsOrNat v.no 0
    let totalVotes := yes + no
    if totalVotes = 0 then sinVotacionMetric
    else
      let consensusIndex := jsRound ((yes : ℚ) / (totalVotes : ℚ) * 100)
      if consensusIndex = 100 ∧ no = 0 then ⟨consensusIndex, "Unanimidad", "#10B981"⟩
      else if 80 ≤ consensusIndex then ⟨consensusIndex, "Gran Acuerdo", "#34D399"⟩
      else if consensusIndex ≤ 55 ∧ 45 ≤ consensusIndex then ⟨consensusIndex, "Ajustada", "#F59E0B"⟩
      else if consensusIndex < 45 then
        (if consensusIndex ≤ 55 then ⟨consensusIndex, "Ajustada", "#EF4444"⟩
         else ⟨consensusIndex, "División", "#3B82F6"⟩)
      else ⟨consensusIndex, "División", "#FBBF24"⟩

/-- `calculateConsensus(initiative)` of `consensusStats.ts`. -/
def calculateConsensus (initiative : Initiative) : ConsensusMetric :=
  match initiative.voting with
  | none => sinVotacionMetric
  | some v => consensusOfVoting v

/-! ## `consensusStats.ts`: `getAffinity` -/

/-- `desglose.cat && Object.keys(desglose.cat).some(k => k.includes(code))`:
the category is present and some of its party codes contains `code`. -/
def keysSomeIncludes (m : Option (List (String × ℕ))) (code : String) : Bool :=
  match m with
  | some entries => entries.any fun kv => strIncludes kv.1 code
  | none => false

/-- The vote-category search of `getAffinity` for one actor code: the
first category among yes, no, abstention whose keys contain the code
(`"yes"`, `"no"`, `"abs"`), or `""` when none does. -/
def findVote (desglose : Desglose) (code : String) : String :=
  if keysSomeIncludes desglose.yes code then "yes"
  else if keysSomeIncludes desglose.no code then "no"
  else if keysSomeIncludes desglose.abstention code then "abs"
  else ""

/-- The `desglose` an initiative contributes to `getAffinity`, when the
guard `init.voting?.exists && init.voting.result?.desglose` passes. -/
def affinityDesglose (init : Initiative) : Option Desglose :=
  match init.voting with
  | none => none
  | some v =>
    if v.exists = false then none
    else match v.result with
      | none => none
      | some res => res.desglose

/-- Loop body of `getAffinity`: the accumulator is
`(matches, totalComparisons)`. -/
def affinityStep (targetCode referenceCode : String) (acc : ℕ × ℕ)
    (init : Initiative) : ℕ × ℕ :=
  match affinityDesglose init with
  | none => acc
  | some desglose =>
    let refVote := findVote desglose referenceCode
    let targetVote := findVote desglose targetCode
    if refVote ≠ "" ∧ targetVote ≠ "" then
      ((if refVote = targetVote then acc.1 + 1 else acc.1), acc.2 + 1)
    else acc

/-- `getAffinity(initiatives, targetCode, referenceCode)` of
`consensusStats.ts` (in the source `referenceCode` defaults to `"GS"`;
the default is irrelevant here and omitted). -/
def getAffinity (initiatives : List Initiative) (targetCode referenceCode : String) : ℤ :=
  let acc := initiatives.foldl (affinityStep targetCode referenceCode) (0, 0)
  if 0 < acc.2 then jsRound ((acc.1 : ℚ) / (acc.2 : ℚ) * 100) else 0

/-! ## `consensusStats.ts`: `getRankings` -/

/-- The `{...i, ...metric}` object built for each voted initiative. -/
structure RankedInitiative where
  initiative : Initiative
  metric : ConsensusMetric
deriving Repr, DecidableEq

/-- The result record of `getRankings`. -/
structure Rankings where
  topConsensus : List RankedInitiative
  topDivisive : List RankedInitiative
deriving Repr, DecidableEq

/-- The filter `initiatives.filter(i => i.voting?.exists)`. -/
def hasVotingB (i : Initiative) : Bool :=
  match i.voting with
  | some v => v.exists
  | none => false

/-- The comparator `(a, b) => b.consensusIndex - a.consensusIndex` as a
boolean `le` relation: `a` may come before `b` (descending order). -/
def consensusGE (a b : RankedInitiative) : Bool :=
  b.metric.consensusIndex ≤ a.metric.consensusIndex

/-- The comparator sorting by distance of `consensusIndex` to 50,
ascending. -/
def divisiveLE (a b : RankedInitiative) : Bool :=
  (a.metric.consensusIndex - 50).natAbs ≤ (b.metric.consensusIndex - 50).natAbs

/-- The classified list `details` built by `getRankings`. -/
def rankingDetails (initiatives : List Initiative) : List RankedInitiative :=
  (initiatives.filter hasVotingB).map fun i => ⟨i, calculateConsensus i⟩

/-- `getRankings(initiatives)` of `consensusStats.ts`. JS `sort` is stable
(ES2019), hence `mergeSort`. -/
def getRankings (initiatives : List Initiative) : Rankings :=
  let details := rankingDetails initiatives
  { topConsensus := (details.mergeSort consensusGE).take 5
    topDivisive := (details.mergeSort divisiveLE).take 5 }

/-! ## `consensusStats.ts`: `calculateDashboardStats` -/

/-- One author-efficiency bucket `{ total, success, rate }`. -/
structure RateStats where
  total : ℕ
  success : ℕ
  rate : ℤ
deriving Repr, DecidableEq

/-- The result record of `calculateDashboardStats`. -/
structure DashboardStats where
  globalSuccessRate : ℤ
  breakdownSuccess : ℕ
  breakdownFailure : ℕ
  breakdownNeutral : ℕ
  gobierno : RateStats
  groups : RateStats
deriving Repr, DecidableEq

/-- Accumulator of the `calculateDashboardStats` loop. -/
structure DashAcc where
  finalizedCount : ℕ := 0
  successCount : ℕ := 0
  failureCount : ℕ := 0
  neutralCount : ℕ := 0
  govTotal : ℕ := 0
  govSuccess : ℕ := 0
  groupTotal : ℕ := 0
  groupSuccess : ℕ := 0
deriving Repr, DecidableEq

/-- Loop body of `calculateDashboardStats`. -/
def dashStep (acc : DashAcc) (init : Initiative) : DashAcc :=
  let status := init.resultado_tram.getD ""
  let author := init.autor.getD ""
  let cls : DashAcc × Bool × Bool :=
    if strIncludes status "Aprobado" || strIncludes status "Convalidado" then
      ({ acc with successCount := acc.successCount + 1 }, true, true)
    else if strIncludes status "Rechazado" || strIncludes status "Derogado" then
      ({ acc with failureCount := acc.failureCount + 1 }, true, false)
    else if strIncludes status "Retirado" || strIncludes status "Decaído" then
      ({ acc with neutralCount := acc.neutralCount + 1 }, true, false)
    else (acc, false, false)
  let acc1 := cls.1
  let isFinalized := cls.2.1
  let isSuccess := cls.2.2
  if isFinalized then
    let acc2 := { acc1 with finalizedCount := acc1.finalizedCount + 1 }
    if strIncludes author.toLower "gobierno" then
      { acc2 with govTotal := acc2.govTotal + 1,
                  govSuccess := acc2.govSuccess + (if isSuccess then 1 else 0) }
    else
      { acc2 with groupTotal := acc2.groupTotal + 1,
                  groupSuccess := acc2.groupSuccess + (if isSuccess then 1 else 0) }
  else acc1

/-- `calculateDashboardStats(initiatives)` of `consensusStats.ts`. -/
def calculateDashboardStats (initiatives : List Initiative) : DashboardStats :=
  let acc := initiatives.foldl dashStep {}
  let globalSuccessRate :=
    if 0 < acc.finalizedCount then
      jsRound ((acc.successCount : ℚ) / (acc.finalizedCount : ℚ) * 100)
    else 0
  let govRate :=
    if 0 < acc.govTotal then
      jsRound ((acc.govSuccess : ℚ) / (acc.govTotal : ℚ) * 100)
    else 0
  let groupRate :=
    if 0 < acc.groupTotal then
      jsRound ((acc.groupSuccess : ℚ) / (acc.groupTotal : ℚ) * 100)
    else 0
  { globalSuccessRate
    breakdownSuccess := acc.successCount
    breakdownFailure := acc.failureCount
    breakdownNeutral := acc.neutralCount
    gobierno := ⟨acc.govTotal, acc.govSuccess, govRate⟩
    groups := ⟨acc.groupTotal, acc.groupSuccess, groupRate⟩ }

/-! ## `participationStats.ts`: `calculateParticipationStats` -/

/-- One entry of the per-initiative `partyVotes` record: vote tallies of a
single party across the four categories. -/
structure PartyTally where
  yes : ℕ := 0
  no : ℕ := 0
  abs : ℕ := 0
  no_vote : ℕ := 0
deriving Repr, DecidableEq

/-- An entry of `criticalAbsences`. -/
structure CriticalAbsence where
  initiative : Initiative
  margin : ℕ
  missing : ℕ
deriving Repr, DecidableEq

/-- An entry of `brokenBlocks`. -/
structure BrokenBlock where
  initiative : Initiative
  party : String
  details : String
deriving Repr, DecidableEq

/-- An entry of `absenteeismRanking`. -/
structure PartyCount where
  party : String
  count : ℕ
deriving Repr, DecidableEq

/-- An entry of `deputyRanking` (`avatar` is never set by this code and is
omitted). -/
structure DeputyEntry where
  name : Option String
  party : Option String
  count : ℕ
deriving Repr, DecidableEq

/-- The result record of `calculateParticipationStats`. -/
structure ParticipationStats where
  globalCommitment : ℤ
  totalVoted : ℕ
  totalPossibleVotes : ℕ
  totalAbstentions : ℕ
  totalNoVotes : ℤ
  absenteeismRanking : List PartyCount
  deputyRanking : List DeputyEntry
  criticalAbsences : List CriticalAbsence
  brokenBlocks : List BrokenBlock
deriving Repr, DecidableEq

/-- `noVotesByParty[party] = (noVotesByParty[party] || 0) + count`:
update an insertion-ordered JS record. -/
def bumpAssoc (m : List (String × ℕ)) (k : String) (n : ℕ) : List (String × ℕ) :=
  match m with
  | [] => [(k, n)]
  | (k', v) :: rest => if k' = k then (k', v + n) :: rest else (k', v) :: bumpAssoc rest k n

/-- `partyVotes[party][category] += count`, creating a zeroed entry first
when the party is new (as the source does). `upd` adds a count to the
category being processed. -/
def tallyBump (pv : List (String × PartyTally)) (k : String)
    (upd : PartyTally → ℕ → PartyTally) (n : ℕ) : List (String × PartyTally) :=
  match pv with
  | [] => [(k, upd {} n)]
  | (k', t) :: rest =>
    if k' = k then (k', upd t n) :: rest else (k', t) :: tallyBump rest k upd n

/-- The `countVotes` closure of the source: fold one desglose category into
the per-party tally record. -/
def countVotes (pv : List (String × PartyTally))
    (upd : PartyTally → ℕ → PartyTally)
    (source : Option (List (String × ℕ))) : List (String × PartyTally) :=
  match source with
  | none => pv
  | some entries => entries.foldl (fun pv kv => tallyBump pv kv.1 upd kv.2) pv

/-- The `partyVotes` record built for one initiative from its desglose, in
source order: yes, no, abstention, no_vote. -/
def partyVotesOf (desglose : Desglose) : List (String × PartyTally) :=
  let pv1 := countVotes [] (fun t n => { t with yes := t.yes + n }) desglose.yes
  let pv2 := countVotes pv1 (fun t n => { t with no := t.no + n }) desglose.no
  let pv3 := countVotes pv2 (fun t n => { t with abs := t.abs + n }) desglose.abstention
  countVotes pv3 (fun t n => { t with no_vote := t.no_vote + n }) desglose.no_vote

/-- The minority detail strings the source builds for a broken block:
every non-dominant category with a nonzero count
(`maxVote = max(yes, no, abs)` here, as in the source). -/
def minorsOf (votes : PartyTally) : List String :=
  let maxVote := max votes.yes (max votes.no votes.abs)
  (if 0 < votes.yes ∧ votes.yes ≠ maxVote then [toString votes.yes ++ " Sí"] else []) ++
  (if 0 < votes.no ∧ votes.no ≠ maxVote then [toString votes.no ++ " No"] else []) ++
  (if 0 < votes.abs ∧ votes.abs ≠ maxVote then [toString votes.abs ++ " Abs"] else []) ++
  (if 0 < votes.no_vote ∧ votes.no_vote ≠ maxVote then [toString votes.no_vote ++ " No Voto"] else [])

/-- The broken-block test and record for one party of one initiative:
`some` of the pushed entry when the party's block is broken, else `none`.
The literal `0.8` of the source is the exact rational `0.8`. -/
def brokenEntry (init : Initiative) (party : String) (votes : PartyTally) :
    Option BrokenBlock :=
  let totalPartyVotes := votes.yes + votes.no + votes.abs + votes.no_vote
  if totalPartyVotes < 5 then none
  else
    let maxVote := max votes.yes (max votes.no votes.abs)
    if (0.8 : ℚ) < (maxVote : ℚ) / (totalPartyVotes : ℚ) ∧
        (maxVote : ℚ) / (totalPartyVotes : ℚ) < 1 then
      if 0 < (minorsOf votes).length then
        some ⟨init, party,
          "Mayoría votó " ++
            (if votes.yes = maxVote then "Sí" else if votes.no = maxVote then "No" else "Abs") ++
            ", pero hubo: " ++ String.intercalate ", " (minorsOf votes)⟩
      else none
    else none

/-- Accumulator of the main `calculateParticipationStats` loop. -/
structure PartAcc where
  totalPresent : ℕ := 0
  totalVoted : ℕ := 0
  totalAbstentions : ℕ := 0
  noVotesByParty : List (String × ℕ) := []
  criticalAbsences : List CriticalAbsence := []
  brokenBlocks : List BrokenBlock := []
deriving Repr, DecidableEq

/-- The `totales`/`desglose` pair of an initiative, when the qualifying
guard `init.voting?.exists && init.voting.result?.totales &&
init.voting.result.desglose` passes. -/
def participationData (init : Initiative) : Option (Totales × Desglose) :=
  match init.voting with
  | none => none
  | some v =>
    if v.exists = false then none
    else match v.result with
      | none => none
      | some res =>
        match res.totales, res.desglose with
        | some totals, some desglose => some (totals, desglose)
        | _, _ => none

/-- Loop body of the main `calculateParticipationStats` pass over a
qualifying initiative. -/
def partBody (acc : PartAcc) (init : Initiative) (totals : Totales)
    (desglose : Desglose) : PartAcc :=
  let votesCast := jsOrNat totals.afavor 0 + jsOrNat totals.enContra 0 +
    jsOrNat totals.abstenciones 0
  let present := jsOrNat totals.presentes 350
  let nvp :=
    match desglose.no_vote with
    | none => acc.noVotesByParty
    | some entries => entries.foldl (fun m kv => bumpAssoc m kv.1 kv.2) acc.noVotesByParty
  let missing := jsOrNat totals.noVotan 0
  let margin := ((jsOrNat totals.afavor 0 : ℤ) - (jsOrNat totals.enContra 0 : ℤ)).natAbs
  let crit :=
    if 0 < missing ∧ margin ≤ missing then
      acc.criticalAbsences ++ [⟨init, margin, missing⟩]
    else acc.criticalAbsences
  let broken := acc.brokenBlocks ++
    (partyVotesOf desglose).filterMap fun kv => brokenEntry init kv.1 kv.2
  { totalPresent := acc.totalPresent + present
    totalVoted := acc.totalVoted + votesCast
    totalAbstentions := acc.totalAbstentions + jsOrNat totals.abstenciones 0
    noVotesByParty := nvp
    criticalAbsences := crit
    brokenBlocks := broken }

/-- Loop body of the main `calculateParticipationStats` pass. -/
def partStep (acc : PartAcc) (init : Initiative) : PartAcc :=
  match participationData init with
  | none => acc
  | some (totals, desglose) => partBody acc init totals desglose

/-- `voting?.noVote || voting?.missingDeputies || []`. -/
def noVoteListOf (init : Initiative) : List Deputy :=
  match init.voting with
  | none => []
  | some v =>
    match v.noVote with
    | some l => l
    | none => v.missingDeputies.getD []

/-- Increment the count stored under `id` in the deputy record, creating
`fresh` first when `id` is absent (the source creates the entry with
count 0 and then increments it). -/
def deputyBump (id : Option String) (fresh : DeputyEntry) :
    List (Option String × DeputyEntry) → List (Option String × DeputyEntry)
  | [] => [(id, { fresh with count := fresh.count + 1 })]
  | (k, e) :: rest =>
    if k = id then (k, { e with count := e.count + 1 }) :: rest
    else (k, e) :: deputyBump id fresh rest

/-- One step of the deputy-absenteeism accumulation, keyed by
`deputy.codParlamentario || deputy.apellidosNombre` (`none` models the JS
`undefined` key). -/
def deputyStep (m : List (Option String × DeputyEntry)) (deputy : Deputy) :
    List (Option String × DeputyEntry) :=
  let id := jsOrStr deputy.codParlamentario deputy.apellidosNombre
  let isMixed :=
    match deputy.grupo with
    | some g => strIncludes g.toLower "mixto"
    | none => false
  let fresh : DeputyEntry :=
    { name := deputy.apellidosNombre
      party := if isMixed then some "Grupo Mixto" else jsOrStr deputy.formacion deputy.grupo
      count := 0 }
  deputyBump id fresh m

/-- Descending comparator on `PartyCount.count` (`(a, b) => b.count - a.count`). -/
def partyCountGE (a b : PartyCount) : Bool := b.count ≤ a.count

/-- Descending comparator on `DeputyEntry.count`. -/
def deputyCountGE (a b : DeputyEntry) : Bool := b.count ≤ a.count

/-- `calculateParticipationStats(initiatives)` of `participationStats.ts`. -/
def calculateParticipationStats (initiatives : List Initiative) : ParticipationStats :=
  let acc := initiatives.foldl partStep {}
  let noVotesByDeputy :=
    initiatives.foldl (fun m init => (noVoteListOf init).foldl deputyStep m) []
  let absenteeismRanking :=
    (((acc.noVotesByParty.map fun kv => PartyCount.mk kv.1 kv.2).mergeSort partyCountGE).take 5)
  let deputyRanking := (((noVotesByDeputy.map Prod.snd).mergeSort deputyCountGE).take 10)
  let totalSeatsOpportunity := initiatives.length * 350
  let globalCommitment :=
    if 0 < totalSeatsOpportunity then
      jsRound ((acc.totalVoted : ℚ) / (totalSeatsOpportunity : ℚ) * 100)
    else 0
  let totalNoVotes : ℤ := (totalSeatsOpportunity : ℤ) - (acc.totalVoted : ℤ)
  { globalCommitment
    totalVoted := acc.totalVoted
    totalPossibleVotes := totalSeatsOpportunity
    totalAbstentions := acc.totalAbstentions
    totalNoVotes
    absenteeismRanking
    deputyRanking
    criticalAbsences := acc.criticalAbsences.take 3
    brokenBlocks := acc.brokenBlocks.take 3 }

/-! ## Spec-side definitions -/

/-- The claim's reading of the classification (spec side of C1): index
`round(100*yes/(yes+no))`, label and color assigned in the stated priority
order. Compared with the source translation `calculateConsensus`. -/
def consensusSpecMetric (yes no : ℕ) : ConsensusMetric :=
  let idx := jsRound (100 * (yes : ℚ) / ((yes : ℚ) + (no : ℚ)))
  if idx = 100 ∧ no = 0 then ⟨idx, "Unanimidad", "#10B981"⟩
  else if 80 ≤ idx then ⟨idx, "Gran Acuerdo", "#34D399"⟩
  else if 45 ≤ idx ∧ idx ≤ 55 then ⟨idx, "Ajustada", "#F59E0B"⟩
  else if idx < 45 then ⟨idx, "Ajustada", "#EF4444"⟩
  else ⟨idx, "División", "#FBBF24"⟩

/-- Strength order of consensus labels: Unanimidad > Gran Acuerdo > all
other labels. -/
def labelRank (m : ConsensusMetric) : ℕ :=
  if m.label = "Unanimidad" then 2 else if m.label = "Gran Acuerdo" then 1 else 0

/-- Spec side of C4: the four status categories. -/
inductive Outcome
  | success
  | failure
  | neutral
  | excluded
deriving Repr, DecidableEq

/-- Spec side of C4: case-sensitive substring status categorization in
first-match-wins order. -/
def statusOutcome (status : String) : Outcome :=
  if strIncludes status "Aprobado" || strIncludes status "Convalidado" then .success
  else if strIncludes status "Rechazado" || strIncludes status "Derogado" then .failure
  else if strIncludes status "Retirado" || strIncludes status "Decaído" then .neutral
  else .excluded

/-- Outcome of an initiative's free-text status field. -/
def initOutcome (i : Initiative) : Outcome := statusOutcome (i.resultado_tram.getD "")

/-- The government-author test of `calculateDashboardStats`:
case-insensitive substring match of "gobierno". -/
def authorIsGov (i : Initiative) : Bool :=
  strIncludes (i.autor.getD "").toLower "gobierno"

/-- Spec side of C5: both actors have a determinable vote on this
initiative. -/
def affinityComparable (targetCode referenceCode : String) (i : Initiative) : Bool :=
  match affinityDesglose i with
  | some d => findVote d referenceCode ≠ "" && findVote d targetCode ≠ ""
  | none => false

/-- Spec side of C5: both actors have a determinable vote and the votes
agree. -/
def affinityMatchB (targetCode referenceCode : String) (i : Initiative) : Bool :=
  match affinityDesglose i with
  | some d => findVote d referenceCode ≠ "" && findVote d targetCode ≠ "" &&
      findVote d referenceCode == findVote d targetCode
  | none => false

/-- With both codes equal, a determinable vote means: some actor-code key
of yes, no or abstention contains the code. -/
def selfDeterminable (c : String) (i : Initiative) : Bool :=
  match affinityDesglose i with
  | some d => keysSomeIncludes d.yes c || keysSomeIncludes d.no c ||
      keysSomeIncludes d.abstention c
  | none => false

/-- The `votesCast` an initiative contributes (0 when it is skipped). -/
def votesCastOf (i : Initiative) : ℕ :=
  match participationData i with
  | some (totals, _) => jsOrNat totals.afavor 0 + jsOrNat totals.enContra 0 +
      jsOrNat totals.abstenciones 0
  | none => 0

/-- The abstentions an initiative contributes (0 when it is skipped). -/
def abstentionsOf (i : Initiative) : ℕ :=
  match participationData i with
  | some (totals, _) => jsOrNat totals.abstenciones 0
  | none => 0

/-- The broken-block entries produced by one initiative (pre-truncation). -/
def brokenOfInit (i : Initiative) : List BrokenBlock :=
  match participationData i with
  | some (_, desglose) => (partyVotesOf desglose).filterMap fun kv => brokenEntry i kv.1 kv.2
  | none => []

/-- The voting record of the C2 counterexample: `exists` true, `totales`
present (1 vote in favor), `desglose` absent. -/
def votingC2 : Voting :=
  { «exists» := true
    result := some { totales := some { afavor := some 1 }, desglose := none } }

/-- The C2 counterexample initiative. -/
def initC2 : Initiative := { voting := some votingC2 }

/-- A blank initiative used for concrete instances. -/
def initBlank : Initiative := {}

/-! ## Claim theorems -/

/-- C1: for every initiative, `calculateConsensus` returns index 0 and the
"no vote" label (`"Sin Votación"`) when voting is absent, `exists` is
false, or yes+no = 0; otherwise it returns index
`round(100*yes/(yes+no))` and assigns label and color by the priority
order Unanimidad (iff index = 100 and no = 0), Gran Acuerdo (index ≥ 80),
Ajustada with warning color `#F59E0B` (45 ≤ index ≤ 55), Ajustada with
risk color `#EF4444` (index < 45), and División for the remaining range
56–79. -/
theorem calculateConsensus_spec (i : Initiative) :
    ((i.voting = none ∨ ∃ v, i.voting = some v ∧
        (v.exists = false ∨ jsOrNat v.yes 0 + jsOrNat v.no 0 = 0)) →
      calculateConsensus i = ⟨0, "Sin Votación", "#e5e7eb"⟩) ∧
    (∀ v : Voting, i.voting = some v → v.exists = true →
      jsOrNat v.yes 0 + jsOrNat v.no 0 ≠ 0 →
      calculateConsensus i = consensusSpecMetric (jsOrNat v.yes 0) (jsOrNat v.no 0)) := by
  constructor
  · rintro (h | ⟨v, hv, h | h⟩)
    · simp [calculateConsensus, h, sinVotacionMetric]
    · simp [calculateConsensus, hv, consensusOfVoting, h, sinVotacionMetric]
    · by_cases he : v.«exists» = false
      · simp [calculateConsensus, hv, consensusOfVoting, he, sinVotacionMetric]
      · simp [calculateConsensus, hv, consensusOfVoting, he, h, sinVotacionMetric]
  · intro v hv he hnz
    have harg : ((jsOrNat v.yes 0 : ℚ) / ((jsOrNat v.yes 0 + jsOrNat v.no 0 : ℕ) : ℚ) * 100)
        = 100 * (jsOrNat v.yes 0 : ℚ) / ((jsOrNat v.yes 0 : ℚ) + (jsOrNat v.no 0 : ℚ)) := by
      push_cast
      ring
    simp only [calculateConsensus, hv, consensusOfVoting, he, Bool.true_eq_false,
      if_false, if_neg hnz, harg, consensusSpecMetric]
    split_ifs <;> first | rfl | omega

/-- Witness for C1: instantiations at an initiative without voting data and
at one with yes = 90, no = 10. -/
theorem calculateConsensus_spec_witness :
    (calculateConsensus { voting := none } = ⟨0, "Sin Votación", "#e5e7eb"⟩) ∧
    (calculateConsensus { voting := some { «exists» := true, yes := some 90, no := some 10 } }
      = consensusSpecMetric 90 10) := by
  constructor
  · exact (calculateConsensus_spec { voting := none }).1 (Or.inl rfl)
  · exact (calculateConsensus_spec _).2
      { «exists» := true, yes := some 90, no := some 10 } rfl rfl (by decide)

lemma jsRound_mono {a b : ℚ} (h : a ≤ b) : jsRound a ≤ jsRound b :=
  Int.floor_le_floor (by linarith)

lemma ratio_le_ratio {y₁ n₁ y₂ n₂ : ℕ} (h₁ : y₁ + n₁ ≠ 0) (h₂ : y₂ + n₂ ≠ 0)
    (hr : y₁ * (y₂ + n₂) ≤ y₂ * (y₁ + n₁)) :
    (y₁ : ℚ) / ((y₁ + n₁ : ℕ) : ℚ) ≤ (y₂ : ℚ) / ((y₂ + n₂ : ℕ) : ℚ) := by
  have p₁ : (0 : ℚ) < ((y₁ + n₁ : ℕ) : ℚ) := by
    exact_mod_cast Nat.pos_of_ne_zero h₁
  have p₂ : (0 : ℚ) < ((y₂ + n₂ : ℕ) : ℚ) := by
    exact_mod_cast Nat.pos_of_ne_zero h₂
  rw [div_le_div_iff₀ p₁ p₂]
  exact_mod_cast hr

/-- The label rank produced by `consensusOfVoting` on nonempty yes/no data:
rank 2 exactly when `no = 0`, else rank 1 exactly when the index reaches
80. -/
lemma consensusOfVoting_labelRank (v : Voting) (he : v.exists = true)
    (hnz : jsOrNat v.yes 0 + jsOrNat v.no 0 ≠ 0) :
    labelRank (consensusOfVoting v) =
      (if jsOrNat v.no 0 = 0 then 2
       else if 80 ≤ jsRound ((jsOrNat v.yes 0 : ℚ) /
          ((jsOrNat v.yes 0 + jsOrNat v.no 0 : ℕ) : ℚ) * 100) then 1 else 0) := by
  simp only [consensusOfVoting, he, Bool.true_eq_false, if_false, if_neg hnz]
  by_cases hn : jsOrNat v.no 0 = 0
  · have hy : jsOrNat v.yes 0 ≠ 0 := by omega
    have harg : ((jsOrNat v.yes 0 : ℚ) /
        ((jsOrNat v.yes 0 + jsOrNat v.no 0 : ℕ) : ℚ) * 100) = 100 := by
      rw [hn]
      push_cast
      rw [add_zero, div_self (by exact_mod_cast hy)]
      norm_num
    rw [harg]
    have h100 : jsRound (100 : ℚ) = 100 := by norm_num [jsRound, Int.floor_eq_iff]
    simp [h100, hn, labelRank]
  · simp only [hn, if_false]
    split_ifs with hu hg hg' <;> simp_all [labelRank]

/-- C9: `calculateConsensus` is monotone in the ratio `yes/(yes+no)`: for
two initiatives with voting present and nonempty yes/no data, the one
whose ratio is at least the other's (stated by cross-multiplication) never
gets a strictly weaker label under the order
Unanimidad > Gran Acuerdo > all other labels. -/
theorem consensus_label_monotone (i₁ i₂ : Initiative) (v₁ v₂ : Voting)
    (h₁ : i₁.voting = some v₁) (h₂ : i₂.voting = some v₂)
    (he₁ : v₁.exists = true) (he₂ : v₂.exists = true)
    (hnz₁ : jsOrNat v₁.yes 0 + jsOrNat v₁.no 0 ≠ 0)
    (hnz₂ : jsOrNat v₂.yes 0 + jsOrNat v₂.no 0 ≠ 0)
    (hr : jsOrNat v₁.yes 0 * (jsOrNat v₂.yes 0 + jsOrNat v₂.no 0) ≤
          jsOrNat v₂.yes 0 * (jsOrNat v₁.yes 0 + jsOrNat v₁.no 0)) :
    labelRank (calculateConsensus i₁) ≤ labelRank (calculateConsensus i₂) := by
  simp only [calculateConsensus, h₁, h₂]
  rw [consensusOfVoting_labelRank v₁ he₁ hnz₁, consensusOfVoting_labelRank v₂ he₂ hnz₂]
  by_cases hn₁ : jsOrNat v₁.no 0 = 0
  · have hy₁ : 0 < jsOrNat v₁.yes 0 := by omega
    have hn₂ : jsOrNat v₂.no 0 = 0 := by
      by_contra h
      have h' : 0 < jsOrNat v₂.no 0 := Nat.pos_of_ne_zero h
      rw [hn₁] at hr
      nlinarith [Nat.mul_pos hy₁ h']
    simp [hn₁, hn₂]
  · by_cases hn₂ : jsOrNat v₂.no 0 = 0
    · simp only [hn₁, hn₂, if_true, if_false]
      split_ifs <;> omega
    · simp only [hn₁, hn₂, if_false]
      have hq := ratio_le_ratio hnz₁ hnz₂ hr
      have hidx := jsRound_mono (mul_le_mul_of_nonneg_right hq (by norm_num : (0:ℚ) ≤ 100))
      split_ifs <;> omega

/-- Witness for C9: a 70/30 split against a 95/5 split. -/
theorem consensus_label_monotone_witness :
    labelRank (calculateConsensus
      { voting := some { «exists» := true, yes := some 70, no := some 30 } }) ≤
    labelRank (calculateConsensus
      { voting := some { «exists» := true, yes := some 95, no := some 5 } }) :=
  consensus_label_monotone _ _
    { «exists» := true, yes := some 70, no := some 30 }
    { «exists» := true, yes := some 95, no := some 5 }
    rfl rfl rfl rfl (by decide) (by decide) (by decide)

/-- C7: `calculateParticipationStats` returns
`totalNoVotes = initiativeCount*350 - totalVoted`, hence
`totalNoVotes + totalVoted = initiativeCount * 350`, and
`totalPossibleVotes = initiativeCount * 350`. -/
theorem participation_totalNoVotes_identity (l : List Initiative) :
    (calculateParticipationStats l).totalNoVotes +
        ((calculateParticipationStats l).totalVoted : ℤ) = (l.length : ℤ) * 350 ∧
    (calculateParticipationStats l).totalPossibleVotes = l.length * 350 := by
  constructor
  · simp only [calculateParticipationStats]
    push_cast
    ring
  · rfl

lemma dash_foldl (l : List Initiative) (acc : DashAcc) :
    l.foldl dashStep acc =
      { finalizedCount := acc.finalizedCount + l.countP (fun i => initOutcome i != .excluded)
        successCount := acc.successCount + l.countP (fun i => initOutcome i == .success)
        failureCount := acc.failureCount + l.countP (fun i => initOutcome i == .failure)
        neutralCount := acc.neutralCount + l.countP (fun i => initOutcome i == .neutral)
        govTotal := acc.govTotal +
          l.countP (fun i => (initOutcome i != .excluded) && authorIsGov i)
        govSuccess := acc.govSuccess +
          l.countP (fun i => (initOutcome i == .success) && authorIsGov i)
        groupTotal := acc.groupTotal +
          l.countP (fun i => (initOutcome i != .excluded) && !authorIsGov i)
        groupSuccess := acc.groupSuccess +
          l.countP (fun i => (initOutcome i == .success) && !authorIsGov i) } := by
  induction l generalizing acc with
  | nil => simp
  | cons i l ih =>
    rw [List.foldl_cons, ih]
    simp only [List.countP_cons, dashStep, initOutcome, statusOutcome]
    by_cases hg : authorIsGov i <;>
      by_cases c1 : (strIncludes (i.resultado_tram.getD "") "Aprobado" ||
          strIncludes (i.resultado_tram.getD "") "Convalidado") = true <;>
      by_cases c2 : (strIncludes (i.resultado_tram.getD "") "Rechazado" ||
          strIncludes (i.resultado_tram.getD "") "Derogado") = true <;>
      by_cases c3 : (strIncludes (i.resultado_tram.getD "") "Retirado" ||
          strIncludes (i.resultado_tram.getD "") "Decaído") = true <;>
      simp only [c1, c2, c3, authorIsGov] at * <;>
      simp [hg, DashAcc.mk.injEq] <;>
      omega

lemma countP_outcome_sum (l : List Initiative) :
    l.countP (fun i => initOutcome i == .success) +
      l.countP (fun i => initOutcome i == .failure) +
      l.countP (fun i => initOutcome i == .neutral) =
    l.countP (fun i => initOutcome i != .excluded) := by
  induction l with
  | nil => simp
  | cons i l ih =>
    simp only [List.countP_cons]
    cases h : initOutcome i <;> simp [h] <;> omega

/-- C4: `calculateDashboardStats` classifies each initiative's status by
case-sensitive substring match in first-match-wins order
(Aprobado/Convalidado → success, else Rechazado/Derogado → failure, else
Retirado/Decaído → neutral, anything else excluded from all counts); the
breakdown counts are the per-category counts, their sum is the number of
finalized initiatives, and `globalSuccessRate` is
`round(100*successCount/finalizedCount)`, with 0 when no status matches. -/
theorem calculateDashboardStats_spec (l : List Initiative) :
    (calculateDashboardStats l).breakdownSuccess =
      l.countP (fun i => initOutcome i == .success) ∧
    (calculateDashboardStats l).breakdownFailure =
      l.countP (fun i => initOutcome i == .failure) ∧
    (calculateDashboardStats l).breakdownNeutral =
      l.countP (fun i => initOutcome i == .neutral) ∧
    (calculateDashboardStats l).breakdownSuccess +
        (calculateDashboardStats l).breakdownFailure +
        (calculateDashboardStats l).breakdownNeutral =
      l.countP (fun i => initOutcome i != .excluded) ∧
    (calculateDashboardStats l).globalSuccessRate =
      (if l.countP (fun i => initOutcome i != .excluded) = 0 then 0
       else jsRound (100 * (l.countP (fun i => initOutcome i == .success) : ℚ) /
         (l.countP (fun i => initOutcome i != .excluded) : ℚ))) := by
  have hfold := dash_foldl l {}
  refine ⟨?_, ?_, ?_, ?_, ?_⟩
  · simp [calculateDashboardStats, hfold]
  · simp [calculateDashboardStats, hfold]
  · simp [calculateDashboardStats, hfold]
  · simp only [calculateDashboardStats, hfold]
    have := countP_outcome_sum l
    omega
  · simp only [calculateDashboardStats, hfold, Nat.zero_add]
    rcases Nat.eq_zero_or_pos (l.countP (fun i => initOutcome i != .excluded)) with h | h
    · simp [h]
    · rw [if_pos h, if_neg (by omega)]
      congr 1
      ring

lemma affinity_foldl (t r : String) (l : List Initiative) (a b : ℕ) :
    l.foldl (affinityStep t r) (a, b) =
      (a + l.countP (affinityMatchB t r), b + l.countP (affinityComparable t r)) := by
  induction l generalizing a b with
  | nil => simp
  | cons i l ih =>
    rw [List.foldl_cons]
    cases h : affinityDesglose i with
    | none =>
      rw [show affinityStep t r (a, b) i = (a, b) from by simp [affinityStep, h]]
      rw [ih]
      simp [List.countP_cons, affinityMatchB, affinityComparable, h]
    | some d =>
      by_cases hc : findVote d r ≠ "" ∧ findVote d t ≠ ""
      · by_cases hm : findVote d r = findVote d t
        · rw [show affinityStep t r (a, b) i = (a + 1, b + 1) from by
            simp [affinityStep, h, hc, hm]]
          rw [ih]
          simp only [List.countP_cons, affinityMatchB, affinityComparable, h, Prod.mk.injEq]
          constructor
          · rw [if_pos (by simp [hc.1, hc.2, hm])]
            omega
          · rw [if_pos (by simp [hc.1, hc.2])]
            omega
        · rw [show affinityStep t r (a, b) i = (a, b + 1) from by
            simp [affinityStep, h, hc, hm]]
          rw [ih]
          simp only [List.countP_cons, affinityMatchB, affinityComparable, h, Prod.mk.injEq]
          constructor
          · rw [if_neg (by simp [hm])]
            omega
          · rw [if_pos (by simp [hc.1, hc.2])]
            omega
      · rw [show affinityStep t r (a, b) i = (a, b) from by simp [affinityStep, h, hc]]
        rw [ih]
        simp only [List.countP_cons, affinityMatchB, affinityComparable, h, Prod.mk.injEq]
        constructor
        · rw [if_neg ?_]
          · omega
          · simp only [Bool.and_eq_true, decide_eq_true_eq]
            tauto
        · rw [if_neg ?_]
          · omega
          · simp only [Bool.and_eq_true, decide_eq_true_eq]
            tauto

/-- C5: `getAffinity` determines each actor's vote per breakdown-bearing
initiative by substring match against the yes/no/abstention actor-code
sets in that order with first match winning (`findVote`); only initiatives
where both actors have a determinable vote count toward the denominator;
the result is `round(100 * matches / comparisons)` where a match is equal
votes, and 0 when no comparable initiative exists. -/
theorem getAffinity_spec (l : List Initiative) (t r : String) :
    getAffinity l t r =
      (if l.countP (affinityComparable t r) = 0 then 0
       else jsRound (100 * (l.countP (affinityMatchB t r) : ℚ) /
        (l.countP (affinityComparable t r) : ℚ))) := by
  unfold getAffinity
  rw [affinity_foldl]
  simp only [Nat.zero_add]
  rcases Nat.eq_zero_or_pos (l.countP (affinityComparable t r)) with h | h
  · simp [h]
  · rw [if_pos h, if_neg (by omega)]
    congr 1
    ring

lemma findVote_ne_empty (d : Desglose) (c : String) :
    (findVote d c ≠ "") ↔ (keysSomeIncludes d.yes c || keysSomeIncludes d.no c ||
      keysSomeIncludes d.abstention c) = true := by
  unfold findVote
  split_ifs <;> simp_all

/-- C10: self-affinity is all-or-nothing: `getAffinity l c c` is 100 when
some initiative has `voting.exists` true and a desglose in which some
actor-code key of yes, no or abstention contains `c` as a substring, and 0
otherwise. -/
theorem getAffinity_self_allOrNothing (l : List Initiative) (c : String) :
    getAffinity l c c = (if l.any (selfDeterminable c) then 100 else 0) := by
  unfold getAffinity
  rw [affinity_foldl]
  simp only [Nat.zero_add]
  have hcm : affinityMatchB c c = affinityComparable c c := by
    funext i
    unfold affinityMatchB affinityComparable
    cases h : affinityDesglose i <;> simp
  have hca : affinityComparable c c = selfDeterminable c := by
    funext i
    unfold affinityComparable selfDeterminable
    cases h : affinityDesglose i with
    | none => rfl
    | some d =>
      simp only [Bool.and_self]
      by_cases hd : findVote d c ≠ ""
      · simp [hd, (findVote_ne_empty d c).mp hd]
      · have h2 : (keysSomeIncludes d.yes c || keysSomeIncludes d.no c ||
            keysSomeIncludes d.abstention c) = false := by
          rcases Bool.eq_false_or_eq_true (keysSomeIncludes d.yes c ||
              keysSomeIncludes d.no c || keysSomeIncludes d.abstention c) with hb | hb
          · exact absurd ((findVote_ne_empty d c).mpr hb) hd
          · exact hb
        rw [h2]
        simp only [ne_eq, Decidable.not_not] at hd
        simp [hd]
  rw [hcm, hca]
  rcases Nat.eq_zero_or_pos (l.countP (selfDeterminable c)) with h | h
  · have hany : l.any (selfDeterminable c) = false := by
      rw [List.any_eq_false]
      intro x hx
      rw [List.countP_eq_zero] at h
      exact h x hx
    simp [h, hany]
  · have hany : l.any (selfDeterminable c) = true := by
      rw [List.any_eq_true]
      obtain ⟨x, hx, hpx⟩ := List.countP_pos_iff.mp h
      exact ⟨x, hx, hpx⟩
    rw [if_pos h, hany, if_pos rfl]
    have hne : ((l.countP (selfDeterminable c) : ℚ)) ≠ 0 := by
      exact_mod_cast Nat.pos_iff_ne_zero.mp h
    rw [div_self hne]
    norm_num [jsRound]

lemma part_foldl (l : List Initiative) (acc : PartAcc) :
    (l.foldl partStep acc).totalVoted = acc.totalVoted + (l.map votesCastOf).sum ∧
    (l.foldl partStep acc).totalAbstentions =
      acc.totalAbstentions + (l.map abstentionsOf).sum ∧
    (l.foldl partStep acc).brokenBlocks = acc.brokenBlocks ++ (l.map brokenOfInit).flatten := by
  induction l generalizing acc with
  | nil => simp
  | cons i l ih =>
    rw [List.foldl_cons]
    obtain ⟨h1, h2, h3⟩ := ih (partStep acc i)
    rw [h1, h2, h3]
    simp only [List.map_cons, List.sum_cons, List.flatten_cons]
    cases hp : participationData i with
    | none =>
      have hstep : partStep acc i = acc := by
        simp [partStep, hp]
      have hv : votesCastOf i = 0 := by simp [votesCastOf, hp]
      have ha : abstentionsOf i = 0 := by simp [abstentionsOf, hp]
      have hb : brokenOfInit i = [] := by simp [brokenOfInit, hp]
      rw [hstep, hv, ha, hb]
      simp only [List.nil_append]
      exact ⟨by omega, by omega, trivial⟩
    | some td =>
      obtain ⟨totals, desglose⟩ := td
      have hstep : partStep acc i = partBody acc i totals desglose := by
        simp [partStep, hp]
      have hv : votesCastOf i = jsOrNat totals.afavor 0 + jsOrNat totals.enContra 0 +
          jsOrNat totals.abstenciones 0 := by simp [votesCastOf, hp]
      have ha : abstentionsOf i = jsOrNat totals.abstenciones 0 := by
        simp [abstentionsOf, hp]
      have hb : brokenOfInit i =
          (partyVotesOf desglose).filterMap fun kv => brokenEntry i kv.1 kv.2 := by
        simp [brokenOfInit, hp]
      rw [hstep, hv, ha, hb]
      refine ⟨by simp [partBody]; omega, by simp [partBody]; omega, ?_⟩
      simp [partBody, List.append_assoc]

/-- C2 (amended): an initiative is skipped from the participation
accumulation iff it lacks voting data, `voting.exists` is false, or it
lacks EITHER of `totales` and `desglose`; `totalVoted` and
`totalAbstentions` accumulate exactly over initiatives having both. In
particular an initiative with `totals` but no `desglose` contributes
nothing. -/
theorem participation_accumulation_spec (l : List Initiative) :
    ((calculateParticipationStats l).totalVoted = (l.map votesCastOf).sum) ∧
    ((calculateParticipationStats l).totalAbstentions = (l.map abstentionsOf).sum) ∧
    (∀ i : Initiative, ∀ v : Voting, i.voting = some v → v.exists = true →
      ∀ res : VoteResult, v.result = some res →
        (res.totales = none ∨ res.desglose = none → votesCastOf i = 0 ∧ abstentionsOf i = 0) ∧
        (∀ totals d, res.totales = some totals → res.desglose = some d →
          votesCastOf i = jsOrNat totals.afavor 0 + jsOrNat totals.enContra 0 +
            jsOrNat totals.abstenciones 0)) := by
  obtain ⟨h1, h2, -⟩ := part_foldl l {}
  refine ⟨?_, ?_, ?_⟩
  · simpa [calculateParticipationStats] using h1
  · simpa [calculateParticipationStats] using h2
  · intro i v hv he res hres
    have hdata : ∀ totals d, res.totales = some totals → res.desglose = some d →
        participationData i = some (totals, d) := by
      intro totals d ht hd
      simp [participationData, hv, he, hres, ht, hd]
    constructor
    · rintro (ht | hd)
      · have hnone : participationData i = none := by
          simp [participationData, hv, he, hres, ht]
        constructor <;> simp [votesCastOf, abstentionsOf, hnone]
      · have hnone : participationData i = none := by
          cases ht : res.totales <;> simp [participationData, hv, he, hres, ht, hd]
        constructor <;> simp [votesCastOf, abstentionsOf, hnone]
    · intro totals d ht hd
      simp [votesCastOf, hdata totals d ht hd]

/-- Witness for C2 (amended): `initC2` (with `totales` present and
`desglose` absent) contributes 0 to both accumulators. -/
theorem participation_accumulation_spec_witness :
    votesCastOf initC2 = 0 ∧ abstentionsOf initC2 = 0 :=
  ((participation_accumulation_spec []).2.2 initC2 votingC2 rfl rfl
    { totales := some { afavor := some 1 }, desglose := none } rfl).1 (Or.inr rfl)

/-- C2 counterexample: the claim predicts that `initC2` (which supplies
`totals` with 1 favor vote but no `desglose`) still has its
votesCast = 1 accumulated into `totalVoted`; the code skips it, leaving
`totalVoted` of the one-element dataset at 0. -/
theorem participation_skip_counterexample :
    initC2.voting = some votingC2 ∧ votingC2.exists = true ∧
    votingC2.result = some { totales := some { afavor := some 1 }, desglose := none } ∧
    jsOrNat (some 1) 0 + jsOrNat none 0 + jsOrNat none 0 = 1 ∧
    (calculateParticipationStats [initC2]).totalVoted = 0 := by
  refine ⟨rfl, rfl, rfl, rfl, ?_⟩
  obtain ⟨h1, -, -⟩ := part_foldl [initC2] {}
  simp only [calculateParticipationStats, h1]
  simp [votesCastOf, participationData, initC2, votingC2]

lemma consensusGE_trans : ∀ a b c : RankedInitiative,
    consensusGE a b → consensusGE b c → consensusGE a c := by
  intro a b c
  simp only [consensusGE, decide_eq_true_eq]
  omega

lemma consensusGE_total : ∀ a b : RankedInitiative,
    consensusGE a b || consensusGE b a := by
  intro a b
  simp only [consensusGE, Bool.or_eq_true, decide_eq_true_eq]
  omega

lemma divisiveLE_trans : ∀ a b c : RankedInitiative,
    divisiveLE a b → divisiveLE b c → divisiveLE a c := by
  intro a b c
  simp only [divisiveLE, decide_eq_true_eq]
  omega

lemma divisiveLE_total : ∀ a b : RankedInitiative,
    divisiveLE a b || divisiveLE b a := by
  intro a b
  simp only [divisiveLE, Bool.or_eq_true, decide_eq_true_eq]
  omega

/-- Stability of `mergeSort` phrased on key classes: the sort leaves the
subsequence of elements sharing one key untouched. -/
lemma mergeSort_filter_stable {α : Type} (le : α → α → Bool)
    (htrans : ∀ a b c, le a b → le b c → le a c)
    (htotal : ∀ a b, le a b || le b a)
    (l : List α) (p : α → Bool)
    (hp : ∀ a b, p a → p b → le a b) :
    (l.mergeSort le).filter p = l.filter p := by
  have hpair : (l.filter p).Pairwise (fun a b => le a b) :=
    List.pairwise_of_forall_mem_list fun a ha b hb =>
      hp a b (List.of_mem_filter ha) (List.of_mem_filter hb)
  have hsub : List.Sublist (l.filter p) (l.mergeSort le) :=
    List.sublist_mergeSort htrans htotal hpair (List.filter_sublist l)
  have heq : (l.filter p).filter p = l.filter p :=
    List.filter_eq_self.mpr fun a ha => List.of_mem_filter ha
  have hsub2 : List.Sublist (l.filter p) ((l.mergeSort le).filter p) :=
    heq ▸ hsub.filter p
  have hlen : ((l.mergeSort le).filter p).length = (l.filter p).length :=
    ((List.mergeSort_perm l le).filter p).length_eq
  exact (hsub2.eq_of_length hlen.symm).symm

/-- C3: `getRankings` restricts to initiatives with `voting.exists` true,
classifies each, sorts stably by `consensusIndex` descending
(respectively by `|consensusIndex - 50|` ascending) and takes the first 5
of each sort; ties of the consensus sort preserve input order (the
one-key subsequences are untouched), and each returned list has exactly
`min 5 n` entries for `n` qualifying initiatives. -/
theorem getRankings_spec (l : List Initiative) :
    (getRankings l).topConsensus = ((rankingDetails l).mergeSort consensusGE).take 5 ∧
    (getRankings l).topDivisive = ((rankingDetails l).mergeSort divisiveLE).take 5 ∧
    rankingDetails l = (l.filter hasVotingB).map (fun i => ⟨i, calculateConsensus i⟩) ∧
    ((rankingDetails l).mergeSort consensusGE).Pairwise
      (fun a b => b.metric.consensusIndex ≤ a.metric.consensusIndex) ∧
    List.Perm ((rankingDetails l).mergeSort consensusGE) (rankingDetails l) ∧
    (∀ k : ℤ, ((rankingDetails l).mergeSort consensusGE).filter
        (fun x => x.metric.consensusIndex == k) =
      (rankingDetails l).filter (fun x => x.metric.consensusIndex == k)) ∧
    ((rankingDetails l).mergeSort divisiveLE).Pairwise
      (fun a b => (a.metric.consensusIndex - 50).natAbs ≤
        (b.metric.consensusIndex - 50).natAbs) ∧
    List.Perm ((rankingDetails l).mergeSort divisiveLE) (rankingDetails l) ∧
    (getRankings l).topConsensus.length = min 5 (l.filter hasVotingB).length ∧
    (getRankings l).topDivisive.length = min 5 (l.filter hasVotingB).length := by
  refine ⟨rfl, rfl, rfl, ?_, List.mergeSort_perm _ _, ?_, ?_, List.mergeSort_perm _ _, ?_, ?_⟩
  · exact (List.sorted_mergeSort consensusGE_trans consensusGE_total _).imp
      fun h => by simpa [consensusGE] using h
  · intro k
    exact mergeSort_filter_stable consensusGE consensusGE_trans consensusGE_total _
      (fun x => x.metric.consensusIndex == k)
      fun a b ha hb => by
        simp only [beq_iff_eq] at ha hb
        simp [consensusGE, ha, hb]
  · exact (List.sorted_mergeSort divisiveLE_trans divisiveLE_total _).imp
      fun h => by simpa [divisiveLE] using h
  · simp [getRankings, rankingDetails]
  · simp [getRankings, rankingDetails]

/-- C8: the four analysis functions are total Lean functions on the
embedded data model (no exception paths exist), every rate field is an
integer by type (`ℤ`, the image of `Math.round`), and each zero
denominator yields 0: the consensus index on absent/empty voting, the
affinity with no comparable initiative, the three dashboard rates with
empty buckets, and the commitment with an empty dataset. -/
theorem rates_zero_denominator (l : List Initiative) (i : Initiative) (t r : String) :
    ((i.voting = none ∨ ∃ v, i.voting = some v ∧
        (v.exists = false ∨ jsOrNat v.yes 0 + jsOrNat v.no 0 = 0)) →
      (calculateConsensus i).consensusIndex = 0) ∧
    (l.countP (affinityComparable t r) = 0 → getAffinity l t r = 0) ∧
    ((calculateDashboardStats l).breakdownSuccess +
        (calculateDashboardStats l).breakdownFailure +
        (calculateDashboardStats l).breakdownNeutral = 0 →
      (calculateDashboardStats l).globalSuccessRate = 0) ∧
    ((calculateDashboardStats l).gobierno.total = 0 →
      (calculateDashboardStats l).gobierno.rate = 0) ∧
    ((calculateDashboardStats l).groups.total = 0 →
      (calculateDashboardStats l).groups.rate = 0) ∧
    (l = [] → (calculateParticipationStats l).globalCommitment = 0) := by
  have hfold := dash_foldl l {}
  refine ⟨?_, ?_, ?_, ?_, ?_, ?_⟩
  · rintro (h | ⟨v, hv, h | h⟩)
    · simp [calculateConsensus, h, sinVotacionMetric]
    · simp [calculateConsensus, hv, consensusOfVoting, h, sinVotacionMetric]
    · by_cases he : v.«exists» = false
      · simp [calculateConsensus, hv, consensusOfVoting, he, sinVotacionMetric]
      · simp [calculateConsensus, hv, consensusOfVoting, he, h, sinVotacionMetric]
  · intro h
    unfold getAffinity
    rw [affinity_foldl]
    simp [h]
  · simp only [calculateDashboardStats, hfold, Nat.zero_add]
    intro h
    have hsum := countP_outcome_sum l
    rw [if_neg (by omega)]
  · simp only [calculateDashboardStats, hfold, Nat.zero_add]
    intro h
    rw [if_neg (by omega)]
  · simp only [calculateDashboardStats, hfold, Nat.zero_add]
    intro h
    rw [if_neg (by omega)]
  · intro h
    subst h
    rfl

/-- Witness for C8: the empty dataset and an initiative without voting
data. -/
theorem rates_zero_denominator_witness :
    (calculateConsensus { voting := none }).consensusIndex = 0 ∧
    getAffinity [] "GP" "GS" = 0 ∧
    (calculateDashboardStats []).globalSuccessRate = 0 ∧
    (calculateDashboardStats []).gobierno.rate = 0 ∧
    (calculateDashboardStats []).groups.rate = 0 ∧
    (calculateParticipationStats []).globalCommitment = 0 := by
  obtain ⟨h1, h2, h3, h4, h5, h6⟩ :=
    rates_zero_denominator [] { voting := none } "GP" "GS"
  exact ⟨h1 (Or.inl rfl), h2 rfl, h3 rfl, h4 rfl, h5 rfl, h6 rfl⟩

lemma ratio_bounds_iff (m t : ℕ) (ht : 0 < t) :
    ((0.8 : ℚ) < (m : ℚ) / (t : ℚ) ∧ (m : ℚ) / (t : ℚ) < 1) ↔
      (4 * t < 5 * m ∧ m < t) := by
  have htq : (0 : ℚ) < (t : ℚ) := by exact_mod_cast ht
  have h08 : (0.8 : ℚ) = 4 / 5 := by norm_num
  rw [h08, div_lt_one htq, div_lt_div_iff₀ (by norm_num) htq]
  norm_cast
  omega

/-- Inside the strict dissidence window some non-dominant category is
nonzero, so the minority detail list is nonempty. -/
lemma minorsOf_ne_nil (v : PartyTally)
    (h1 : 4 * (v.yes + v.no + v.abs + v.no_vote) < 5 * max v.yes (max v.no v.abs))
    (h2 : max v.yes (max v.no v.abs) < v.yes + v.no + v.abs + v.no_vote) :
    minorsOf v ≠ [] := by
  intro h
  unfold minorsOf at h
  simp only [List.append_eq_nil] at h
  obtain ⟨⟨⟨hA, hB⟩, hC⟩, hD⟩ := h
  have hc1 : v.yes = 0 ∨ v.yes = max v.yes (max v.no v.abs) := by
    by_cases hc : 0 < v.yes ∧ v.yes ≠ max v.yes (max v.no v.abs)
    · rw [if_pos hc] at hA
      exact absurd hA (List.cons_ne_nil _ _)
    · push_neg at hc
      rcases Nat.eq_zero_or_pos v.yes with h0 | h0
      · exact Or.inl h0
      · exact Or.inr (hc h0)
  have hc2 : v.no = 0 ∨ v.no = max v.yes (max v.no v.abs) := by
    by_cases hc : 0 < v.no ∧ v.no ≠ max v.yes (max v.no v.abs)
    · rw [if_pos hc] at hB
      exact absurd hB (List.cons_ne_nil _ _)
    · push_neg at hc
      rcases Nat.eq_zero_or_pos v.no with h0 | h0
      · exact Or.inl h0
      · exact Or.inr (hc h0)
  have hc3 : v.abs = 0 ∨ v.abs = max v.yes (max v.no v.abs) := by
    by_cases hc : 0 < v.abs ∧ v.abs ≠ max v.yes (max v.no v.abs)
    · rw [if_pos hc] at hC
      exact absurd hC (List.cons_ne_nil _ _)
    · push_neg at hc
      rcases Nat.eq_zero_or_pos v.abs with h0 | h0
      · exact Or.inl h0
      · exact Or.inr (hc h0)
  have hc4 : v.no_vote = 0 ∨ v.no_vote = max v.yes (max v.no v.abs) := by
    by_cases hc : 0 < v.no_vote ∧ v.no_vote ≠ max v.yes (max v.no v.abs)
    · rw [if_pos hc] at hD
      exact absurd hD (List.cons_ne_nil _ _)
    · push_neg at hc
      rcases Nat.eq_zero_or_pos v.no_vote with h0 | h0
      · exact Or.inl h0
      · exact Or.inr (hc h0)
  generalize hgen : max v.yes (max v.no v.abs) = M at h1 h2 hc1 hc2 hc3 hc4
  omega

/-- C6: for every actor tally of a qualifying initiative with total ≥ 5,
the actor is recorded as a broken block iff `maxVote/total` lies strictly
between 0.8 and 1, where `maxVote = max(yes, no, abstain)` and the total
also counts no-votes; the recorded details list every non-dominant
category with a nonzero count; the tally {yes 81, no 19} qualifies and
{yes 80, no 20} does not; and at most the first 3 broken blocks found
across the dataset are returned. -/
theorem brokenBlocks_spec (l : List Initiative) (init : Initiative)
    (party : String) (v : PartyTally) :
    (5 ≤ v.yes + v.no + v.abs + v.no_vote →
      ((brokenEntry init party v).isSome = true ↔
        ((0.8 : ℚ) < ((max v.yes (max v.no v.abs) : ℕ) : ℚ) /
            ((v.yes + v.no + v.abs + v.no_vote : ℕ) : ℚ) ∧
          ((max v.yes (max v.no v.abs) : ℕ) : ℚ) /
            ((v.yes + v.no + v.abs + v.no_vote : ℕ) : ℚ) < 1))) ∧
    (v.yes + v.no + v.abs + v.no_vote < 5 → brokenEntry init party v = none) ∧
    (∀ e, brokenEntry init party v = some e →
      e.initiative = init ∧ e.party = party ∧ minorsOf v ≠ [] ∧
      e.details = "Mayoría votó " ++
        (if v.yes = max v.yes (max v.no v.abs) then "Sí"
         else if v.no = max v.yes (max v.no v.abs) then "No" else "Abs") ++
        ", pero hubo: " ++ String.intercalate ", " (minorsOf v)) ∧
    (brokenEntry init party ⟨81, 19, 0, 0⟩).isSome = true ∧
    brokenEntry init party ⟨80, 20, 0, 0⟩ = none ∧
    (calculateParticipationStats l).brokenBlocks =
      ((l.map brokenOfInit).flatten).take 3 ∧
    (calculateParticipationStats l).brokenBlocks.length ≤ 3 := by
  refine ⟨?_, ?_, ?_, ?_, ?_, ?_, ?_⟩
  · intro h5
    simp only [brokenEntry]
    rw [if_neg (by omega)]
    by_cases hr : ((0.8 : ℚ) < ((max v.yes (max v.no v.abs) : ℕ) : ℚ) /
        ((v.yes + v.no + v.abs + v.no_vote : ℕ) : ℚ) ∧
      ((max v.yes (max v.no v.abs) : ℕ) : ℚ) /
        ((v.yes + v.no + v.abs + v.no_vote : ℕ) : ℚ) < 1)
    · rw [if_pos hr]
      have hnat := (ratio_bounds_iff _ _ (by omega)).mp hr
      have hne := minorsOf_ne_nil v hnat.1 hnat.2
      rw [if_pos (List.length_pos.mpr hne)]
      simp only [Option.isSome_some, true_iff]
      exact hr
    · rw [if_neg hr]
      simp only [Option.isSome_none, Bool.false_eq_true, false_iff]
      exact hr
  · intro h5
    simp only [brokenEntry]
    rw [if_pos h5]
  · intro e he
    simp only [brokenEntry] at he
    by_cases hlt : v.yes + v.no + v.abs + v.no_vote < 5
    · rw [if_pos hlt] at he
      exact absurd he (by simp)
    rw [if_neg hlt] at he
    by_cases hr : ((0.8 : ℚ) < ((max v.yes (max v.no v.abs) : ℕ) : ℚ) /
        ((v.yes + v.no + v.abs + v.no_vote : ℕ) : ℚ) ∧
      ((max v.yes (max v.no v.abs) : ℕ) : ℚ) /
        ((v.yes + v.no + v.abs + v.no_vote : ℕ) : ℚ) < 1)
    swap
    · rw [if_neg hr] at he
      exact absurd he (by simp)
    rw [if_pos hr] at he
    by_cases hm : 0 < (minorsOf v).length
    swap
    · rw [if_neg hm] at he
      exact absurd he (by simp)
    rw [if_pos hm] at he
    obtain rfl := Option.some.inj he
    exact ⟨rfl, rfl, fun hnil => by simp [hnil] at hm, rfl⟩
  · have hmax : max (81:ℕ) (max 19 0) = 81 := by decide
    have htot : (81:ℕ) + 19 + 0 + 0 = 100 := by decide
    simp only [brokenEntry, hmax, htot]
    rw [if_neg (by decide), if_pos ?_, if_pos (by decide)]
    · simp
    · constructor <;> norm_num
  · have hmax : max (80:ℕ) (max 20 0) = 80 := by decide
    have htot : (80:ℕ) + 20 + 0 + 0 = 100 := by decide
    simp only [brokenEntry, hmax, htot]
    rw [if_neg (by decide), if_neg ?_]
    rintro ⟨hcon, -⟩
    norm_num at hcon
  · obtain ⟨-, -, h3⟩ := part_foldl l {}
    simp only [calculateParticipationStats, h3]
    simp
  · simp only [calculateParticipationStats]
    exact List.length_take_le 3 _

/-- Witness for C6: the boundary tally 81/19 (total 100, ratio 0.81) and a
small 1/1/1/1 tally (below the noise floor). -/
theorem brokenBlocks_spec_witness :
    (5 ≤ 81 + 19 + 0 + 0 ∧
      ((brokenEntry initBlank "GP" ⟨81, 19, 0, 0⟩).isSome = true ↔
        ((0.8 : ℚ) < ((max 81 (max 19 0) : ℕ) : ℚ) / (((81 + 19 + 0 + 0 : ℕ)) : ℚ) ∧
          ((max 81 (max 19 0) : ℕ) : ℚ) / (((81 + 19 + 0 + 0 : ℕ)) : ℚ) < 1))) ∧
    ((1:ℕ) + 1 + 1 + 1 < 5 ∧ brokenEntry initBlank "GS" ⟨1, 1, 1, 1⟩ = none) := by
  refine ⟨⟨by decide, ?_⟩, ⟨by decide, ?_⟩⟩
  · exact (brokenBlocks_spec [] initBlank "GP" ⟨81, 19, 0, 0⟩).1 (by decide)
  · exact (brokenBlocks_spec [] initBlank "GS" ⟨1, 1, 1, 1⟩).2.1 (by decide)

end Transparencia
